import Mathlib

/-!
Verification development for the GREAT repository (graph adversarial attacks).

This file gives a shallow embedding, over `ℚ` and plain lists, of:
* the budget projection and final-edge sampling used by `PRBCDAttack`
  (src/greatx/attack/targeted/rbcd_attack.py);
* the epoch-update step of `PRBCDAttack.update` (block resampling boundary,
  best-state early-stopping bookkeeping);
* the argument-resolution logic of `InjectionAttacker.attack`
  (src/graphwar/attack/injection/injection_attacker.py) and its result
  accessors and feature generation.

Python floats are modelled as rationals; fallible Python code returns
`Except PyError`.
-/

/-- Python exception kinds raised by the embedded code paths. -/
inductive PyError
  | runtimeError
  | valueError
  | typeError
  | indexError
  | assertionError
  | zeroDivisionError
deriving DecidableEq, Repr

/-- Clip a scalar to the interval [0,1] (torch.clamp(x, 0, 1)). -/
def clip01 (x : ℚ) : ℚ := max 0 (min 1 x)

/-- Modelled from the spec: the bisection objective of `project`
(greatx/attack/untargeted/utils.py, not under src/): `sum(clip(w - mu, 0, 1))`. -/
def shiftedMass (w : List ℚ) (mu : ℚ) : ℚ :=
  (w.map (fun x => clip01 (x - mu))).sum

/-- Modelled from the spec: bisection search over the scalar shift `mu` such that
`sum(clip(w - mu, 0, 1)) = budget` (greatx/attack/untargeted/utils.py, not under
src/).  The search keeps the invariant that the upper endpoint has mass at most
the budget and stops when the interval width drops below `eps` or the iteration
cap (the fuel) is hit, returning the feasible endpoint. -/
def bisect (w : List ℚ) (budget eps : ℚ) : ℚ → ℚ → ℕ → ℚ
  | _, hi, 0 => hi
  | lo, hi, Nat.succ n =>
    if hi - lo < eps then hi
    else if budget < shiftedMass w ((lo + hi) / 2) then
      bisect w budget eps ((lo + hi) / 2) hi n
    else
      bisect w budget eps lo ((lo + hi) / 2) n

/-- Modelled from the spec: `project` (greatx/attack/untargeted/utils.py, not
under src/), the Euclidean projection onto the capped simplex
`{w in [0,1]^k : sum(w) <= budget}` used by the projection step of
`PRBCDAttack.update`.  If the clipped input already satisfies the budget the
projection short-circuits at `mu = 0`; otherwise the shift is found by
bisection over `[min(w) - 1, max(w)]` and the result is `clip(w - mu, 0, 1)`. -/
def project (budget : ℚ) (w : List ℚ) (eps : ℚ) : List ℚ :=
  if shiftedMass w 0 ≤ budget then w.map clip01
  else w.map (fun x =>
    clip01 (x - bisect w budget eps (w.foldr min 0 - 1) (w.foldr max 0) 100))

/-- Attack configuration fields of `PRBCDAttack` relevant to `update`
(src/greatx/attack/targeted/rbcd_attack.py): the resolved edge budget,
`epochs_resampling`, the projection tolerance `coeffs['eps']` and the
`coeffs['with_early_stopping']` flag. -/
structure PRBCDConfig where
  num_budgets : ℕ
  epochs_resampling : ℕ
  eps : ℚ
  with_early_stopping : Bool
deriving DecidableEq, Repr

/-- Mutable attack state of `PRBCDAttack` as touched by `update`
(src/greatx/attack/targeted/rbcd_attack.py): the current block, its edge
index and relaxed edge weights, plus the best-known-so-far snapshot kept for
early stopping.  `best_metric` starts at minus infinity, modelled as `none`. -/
structure PRBCDState where
  current_block : List ℕ
  block_edge_index : List (ℕ × ℕ)
  block_edge_weight : List ℚ
  best_metric : Option ℚ
  best_block : List ℕ
  best_edge_index : List (ℕ × ℕ)
  best_pert_edge_weight : List ℚ
deriving DecidableEq, Repr

/-- Modelled from the spec: `update_edge_weights` (greatx untargeted
`RBCDAttack`, not under src/) performs the unconstrained gradient-ascent step,
adding the gradient scaled by the epoch's learning rate to the block weights;
the effective rate for the epoch is supplied as `lrate`. -/
def update_edge_weights (lrate : ℚ) (w g : List ℚ) : List ℚ :=
  List.zipWith (fun wi gi => wi + lrate * gi) w g

/-- First phase of `PRBCDAttack.update` (src lines 173-181): the gradient step
followed by projection of the block weights onto the budget simplex. -/
def projStep (num_budgets : ℕ) (eps lrate : ℚ) (gradient : List ℚ)
    (s : PRBCDState) : PRBCDState :=
  let w := project (num_budgets : ℚ)
    (update_edge_weights lrate s.block_edge_weight gradient) eps
  { s with block_edge_weight := w }

/-- Comparison `metric > self.best_metric` with `best_metric` initialised to
minus infinity (src line 213). -/
def metricGT (m : ℚ) : Option ℚ → Bool
  | none => true
  | some b => decide (b < m)

/-- Best-state update of `PRBCDAttack.update` (src lines 213-217): the four
best-state fields are overwritten exactly when the epoch's metric is strictly
greater than the stored best metric. -/
def bestStep (m : ℚ) (s : PRBCDState) : PRBCDState :=
  if metricGT m s.best_metric then
    { s with best_metric := some m, best_block := s.current_block,
             best_edge_index := s.block_edge_index,
             best_pert_edge_weight := s.block_edge_weight }
  else s

/-- Write a (block, edge index, edge weight) triple into the state; used for
the outcome of `resample_random_block`. -/
def writeBlock (s : PRBCDState) (b : List ℕ × List (ℕ × ℕ) × List ℚ) :
    PRBCDState :=
  { s with current_block := b.1, block_edge_index := b.2.1,
           block_edge_weight := b.2.2 }

/-- Resampling branch of `PRBCDAttack.update` (src lines 220-228): while
`epoch < epochs_resampling - 1` the block is resampled; at exactly
`epoch == epochs_resampling - 1` the current block, edge index and weights are
snapped back to the stored best state.  `resample` stands for
`resample_random_block` (untargeted `RBCDAttack`, not under src/), which only
replaces the current block triple. -/
def resampleStep (epochs_resampling : ℕ)
    (resample : PRBCDState → List ℕ × List (ℕ × ℕ) × List ℚ)
    (epoch : ℕ) (s : PRBCDState) : PRBCDState :=
  if (epoch : ℤ) < (epochs_resampling : ℤ) - 1 then writeBlock s (resample s)
  else if (epoch : ℤ) = (epochs_resampling : ℤ) - 1 then
    { s with current_block := s.best_block,
             block_edge_index := s.best_edge_index,
             block_edge_weight := s.best_pert_edge_weight }
  else s

/-- Embedding of `PRBCDAttack.update` (src lines 169-231).  `resample` stands
for `resample_random_block` and `metricOf` for the surrogate-model metric
evaluated on the top-k thresholded modified graph, both of which live outside
src/; when `with_early_stopping` is off, `update` returns right after the
projection. -/
def update (cfg : PRBCDConfig) (lrate : ℚ)
    (resample : PRBCDState → List ℕ × List (ℕ × ℕ) × List ℚ)
    (metricOf : PRBCDState → ℚ) (epoch : ℕ) (gradient : List ℚ)
    (s : PRBCDState) : PRBCDState :=
  let s1 := projStep cfg.num_budgets cfg.eps lrate gradient s
  if cfg.with_early_stopping then
    resampleStep cfg.epochs_resampling resample epoch (bestStep (metricOf s1) s1)
  else s1

/-- The four best-state fields as a tuple. -/
def bestQuad (s : PRBCDState) :
    Option ℚ × List ℕ × List (ℕ × ℕ) × List ℚ :=
  (s.best_metric, s.best_block, s.best_edge_index, s.best_pert_edge_weight)

/-- Order on best metrics, with `none` as minus infinity. -/
def optionLE : Option ℚ → Option ℚ → Bool
  | none, _ => true
  | some _, none => false
  | some a, some b => decide (a ≤ b)

/-- The (block, edge index, edge weight) triple of a state. -/
def blockTriple (s : PRBCDState) : List ℕ × List (ℕ × ℕ) × List ℚ :=
  (s.current_block, s.block_edge_index, s.block_edge_weight)

/-- The current block as a list of entries (candidate index, edge pair,
weight), zipping the three parallel fields. -/
def blockEntries (s : PRBCDState) : List (ℕ × (ℕ × ℕ) × ℚ) :=
  s.current_block.zip (s.block_edge_index.zip s.block_edge_weight)

/-- The block entries retained by resampling: those whose weight is strictly
above the replacement threshold; the remaining, lowest-weight entries are the
ones replaced. -/
def keptEntries (keep_thr : ℚ) (s : PRBCDState) : List (ℕ × (ℕ × ℕ) × ℚ) :=
  (blockEntries s).filter (fun e => decide (keep_thr < e.2.2))

/-- Entries of a (block, edge index, edge weight) triple. -/
def tripleEntries (b : List ℕ × List (ℕ × ℕ) × List ℚ) :
    List (ℕ × (ℕ × ℕ) × ℚ) :=
  b.1.zip (b.2.1.zip b.2.2)

/-- Modelled from the spec: `resample_random_block` (untargeted `RBCDAttack`,
not under src/) replaces the lowest-weight entries of the current block —
those whose weight does not exceed the replacement threshold `keep_thr` —
with freshly drawn candidates not already present among the retained entries,
preserving the weights of retained entries.  The fresh draw (candidate index,
edge pair, small initial weight) is supplied explicitly. -/
def resample_random_block (keep_thr : ℚ) (fresh : List (ℕ × (ℕ × ℕ) × ℚ))
    (s : PRBCDState) : List ℕ × List (ℕ × ℕ) × List ℚ :=
  let entries := keptEntries keep_thr s ++
    fresh.filter (fun c => decide (c.1 ∉ (keptEntries keep_thr s).map Prod.fst))
  (entries.map Prod.fst, entries.map (fun e => e.2.1),
   entries.map (fun e => e.2.2))

/-- Modelled from the spec: `sample_final_edges` (untargeted `RBCDAttack`, not
under src/) draws `num_budgets` block edges by weighted sampling without
replacement (the order of the draw is supplied explicitly), filters out invalid
candidates, and keeps at most `num_budgets` edges. -/
def sample_final_edges (block_edge_index : List (ℕ × ℕ))
    (valid : ℕ × ℕ → Bool) (num_budgets : ℕ) (draw : List ℕ) :
    List (ℕ × ℕ) :=
  ((draw.dedup.filterMap (fun i => block_edge_index.get? i)).filter
    valid).take num_budgets

/-- Embedding of `PRBCDAttack.get_flipped_edges` (src lines 233-249): when
early stopping is active the state is snapped back to the stored best, then
the final discrete edges are sampled. -/
def get_flipped_edges (with_early_stopping : Bool) (valid : ℕ × ℕ → Bool)
    (num_budgets : ℕ) (draw : List ℕ) (s : PRBCDState) : List (ℕ × ℕ) :=
  let s1 := if with_early_stopping then
      { s with current_block := s.best_block,
               block_edge_index := s.best_edge_index,
               block_edge_weight := s.best_pert_edge_weight }
    else s
  sample_final_edges s1.block_edge_index valid num_budgets draw

/-- Budget check of `PRBCDAttack.attack` (src lines 149-151):
`assert flipped_edges.size(1) <= self.num_budgets`. -/
def validate_flipped_edges (flipped : List (ℕ × ℕ)) (num_budgets : ℕ) :
    Except PyError Unit :=
  if flipped.length ≤ num_budgets then .ok () else .error .assertionError

/-- Concrete configuration with early stopping enabled (witness input). -/
def cfgES : PRBCDConfig := ⟨2, 100, 1/1000000, true⟩

/-- Concrete configuration with early stopping disabled (counterexample
input). -/
def cfgNoES : PRBCDConfig := ⟨2, 100, 1/1000000, false⟩

/-- Concrete attack state used in witnesses and counterexamples. -/
def sEx : PRBCDState := ⟨[7], [(0, 1)], [1/2], none, [], [], []⟩

/-- Concrete stand-in for `resample_random_block` used in witnesses and
counterexamples: it always produces the block `[99]`. -/
def resampleEx : PRBCDState → List ℕ × List (ℕ × ℕ) × List ℚ :=
  fun _ => ([99], [(5, 6)], [1/4])

/-- Concrete stand-in for the surrogate metric used in witnesses and
counterexamples. -/
def metricEx : PRBCDState → ℚ := fun _ => 0

/-- Concrete fresh draw for `resample_random_block` used in witnesses and
counterexamples: one candidate, index 42 with edge (3,4) and a small initial
weight. -/
def freshEx : List (ℕ × (ℕ × ℕ) × ℚ) := [(42, (3, 4), 1/100)]

/-- Concrete attack state with a unit block weight, used with a replacement
threshold of 0 in witnesses and counterexamples. -/
def sEx2 : PRBCDState := ⟨[7], [(0, 1)], [1], none, [], [], []⟩

/-- The three loss functions selectable in `PRBCDAttack.attack`
(greatx.functional, referenced from src lines 11-15 and 100-106). -/
inductive LossFn
  | masked_cross_entropy
  | probability_margin_loss
  | tanh_margin_loss
deriving DecidableEq, Repr

/-- The `loss` argument of `PRBCDAttack.attack` as received at runtime: a
string name or a caller-supplied callable of signature
(predictions, labels, targetMask) -> scalar. -/
inductive LossArg
  | name (s : String)
  | callable (f : List (List ℚ) → List ℕ → Option (List ℕ) → ℚ)

/-- Loss selection of `PRBCDAttack.attack` (src lines 100-106):
`assert loss in ['mce', 'prob_margin', 'tanh_margin']` followed by the
if/elif/else dispatch; anything other than the three names, including a
callable, fails the assertion. -/
def select_loss : LossArg → Except PyError LossFn
  | .name "mce" => .ok .masked_cross_entropy
  | .name "prob_margin" => .ok .probability_margin_loss
  | .name "tanh_margin" => .ok .tanh_margin_loss
  | _ => .error .assertionError

/-- A resolved metric: either one of the named losses or a caller-supplied
callable (the escape hatch of the `metric` argument). -/
inductive MetricVal
  | fromLoss (l : LossFn)
  | custom (f : List (List ℚ) → List ℕ → Option (List ℕ) → ℚ)

/-- Metric resolution of `PRBCDAttack.attack` (src lines 108-111): when
`metric` is None it defaults to the selected loss, otherwise the supplied
value (name or callable) is used verbatim. -/
def resolve_metric (metric : Option MetricVal) (l : LossFn) : MetricVal :=
  match metric with
  | none => .fromLoss l
  | some m => m

/-- The `feat_limits` dict argument of `InjectionAttacker.attack`: optional
values under the keys 'min' and 'max', plus any other (unrecognized) keys. -/
structure FeatDict where
  min? : Option ℚ
  max? : Option ℚ
  extra : List String
deriving DecidableEq, Repr

/-- The `feat_limits` argument of `InjectionAttacker.attack`: a (min, max)
tuple or a dict. -/
inductive FeatLimitsArg
  | tup (lo hi : Option ℚ)
  | dict (d : FeatDict)
deriving DecidableEq, Repr

/-- Result of the feature-constraint resolution inside
`InjectionAttacker.attack`: the resolved `self.feat_limits` pair, the stored
`self.feat_budgets`, and the caller's dict as left after the call (the code
pops 'min' and 'max' from it in place); `dict_after` is `none` when the input
was not a dict. -/
structure FeatResolution where
  feat_limits : ℚ × ℚ
  feat_budgets : Option ℕ
  dict_after : Option FeatDict
deriving DecidableEq, Repr

/-- Bound resolution of `InjectionAttacker.attack` (src lines 166-174),
faithful to the source conditionals
`if min_limits is None and feat is not None: min_limits = feat.min()
else: min_limits = 0.` (and symmetrically for the max bound with 1.); the
`feat is not None` conjunct is always true because of the preceding
`assert feat is not None`, so a supplied bound falls into the else branch and
is overwritten. -/
def resolve_limit_bounds (min_limits max_limits : Option ℚ)
    (feat_min feat_max : ℚ) : ℚ × ℚ :=
  ((if min_limits.isNone then feat_min else 0),
   (if max_limits.isNone then feat_max else 1))

/-- Embedding of the feature-constraint resolution of
`InjectionAttacker.attack` (src lines 144-186): mutual exclusion of
`feat_limits`/`feat_budgets`, tuple/dict parsing with rejection of unknown
dict keys, bound resolution, and the `feat_budgets <= num_feats` assertion.
`feat_min`/`feat_max` are `feat.min()`/`feat.max()` of the base feature
matrix, which the code asserts to be present. -/
def resolve_feature_constraint (feat_limits : Option FeatLimitsArg)
    (feat_budgets : Option ℕ) (feat_min feat_max : ℚ) (num_feats : ℕ) :
    Except PyError FeatResolution :=
  if feat_limits.isSome && feat_budgets.isSome then .error .runtimeError
  else
    let parsed : Except PyError (Option ℚ × Option ℚ × Option FeatDict) :=
      match feat_limits with
      | none => .ok (none, none, none)
      | some (.tup lo hi) => .ok (lo, hi, none)
      | some (.dict d) =>
        if d.extra.isEmpty then .ok (d.min?, d.max?, some ⟨none, none, d.extra⟩)
        else .error .valueError
    match parsed with
    | .error e => .error e
    | .ok (mn, mx, dAfter) =>
      match feat_budgets with
      | some b =>
        if b ≤ num_feats then
          .ok ⟨resolve_limit_bounds mn mx feat_min feat_max, some b, dAfter⟩
        else .error .assertionError
      | none =>
        .ok ⟨resolve_limit_bounds mn mx feat_min feat_max, none, dAfter⟩

/-- Embedding of the per-node edge-count resolution of
`InjectionAttacker.attack` (src lines 125-137): `num_edges_local` and
`num_edges_global` are mutually exclusive; a given global count is divided by
the number of targets (a zero quotient raises); with neither given, the local
count defaults to `int(self._degree.mean().clamp(min=1))`, the truncation of
the clamped mean degree. -/
def resolve_edge_count (num_edges_local num_edges_global : Option ℕ)
    (num_targets : ℕ) (mean_degree : ℚ) : Except PyError ℕ :=
  if num_edges_local.isSome && num_edges_global.isSome then
    .error .runtimeError
  else
    let resolved : Except PyError (Option ℕ) :=
      match num_edges_global with
      | some g =>
        if num_targets = 0 then .error .zeroDivisionError
        else if g / num_targets = 0 then .error .valueError
        else .ok (some (g / num_targets))
      | none => .ok num_edges_local
    match resolved with
    | .error e => .error e
    | .ok (some l) => .ok l
    | .ok none => .ok (Int.toNat ⌊max 1 mean_degree⌋)

/-- Definition following the claim's words for the edge-count default:
round(meanDegree) clamped to at least 1 (for comparison with the truncation
the source performs). -/
def claimed_default_edge_count (mean_degree : ℚ) : ℕ :=
  max 1 (round mean_degree).toNat

/-- Injection ledger state of `InjectionAttacker` (src lines 44-63): the
injected node list, the injected edge dict (key -> insertion iteration) and
the injected feature list. -/
structure InjectionState where
  _injected_nodes : List ℕ
  _injected_edges : List ((ℕ × ℕ) × Option ℕ)
  _injected_feats : List (List ℚ)
deriving DecidableEq, Repr

/-- Embedding of `InjectionAttacker.reset` (src lines 44-63): all injected
state is cleared. -/
def reset_state : InjectionState := ⟨[], [], []⟩

/-- Embedding of `InjectionAttacker.injected_nodes` (src lines 192-204):
returns None when nothing has been injected. -/
def injected_nodes (s : InjectionState) : Option (List ℕ) :=
  if s._injected_nodes.isEmpty then none else some s._injected_nodes

/-- Embedding of `InjectionAttacker.injected_edges` (src lines 210-222):
returns None when empty, otherwise the dict keys. -/
def injected_edges (s : InjectionState) : Option (List (ℕ × ℕ)) :=
  if s._injected_edges.isEmpty then none
  else some (s._injected_edges.map Prod.fst)

/-- Embedding of `InjectionAttacker.injected_feats` (src lines 228-234):
returns None when empty, otherwise the stacked feature list. -/
def injected_feats (s : InjectionState) : Option (List (List ℚ)) :=
  if s._injected_feats.isEmpty then none else some s._injected_feats

/-- A PyG-like graph: node feature matrix and edge list. -/
structure PyGData where
  x : List (List ℚ)
  edge_index : List (ℕ × ℕ)
deriving DecidableEq, Repr

/-- Modelled from the spec: `add_edges` (graphwar.utils, not under src/)
unions the injected edges into the base edge list, mirrored when the result
is forced symmetric; with no injected edges the base edges are returned. -/
def add_edges (edge_index : List (ℕ × ℕ)) (inj : Option (List (ℕ × ℕ)))
    (symmetric : Bool) : List (ℕ × ℕ) :=
  match inj with
  | none => edge_index
  | some es =>
    if symmetric then edge_index ++ es ++ es.map (fun e => (e.2, e.1))
    else edge_index ++ es

/-- Embedding of `InjectionAttacker.data` (src lines 278-300): concatenates
the injected features onto the base feature matrix and adds the injected
edges.  `torch.cat([data.x, injected_feats], dim=0)` raises a TypeError when
`injected_feats()` returns None, i.e. when nothing has been injected. -/
def data (ori : PyGData) (symmetric : Bool) (s : InjectionState) :
    Except PyError PyGData :=
  match injected_feats s with
  | none => .error .typeError
  | some fs =>
    .ok ⟨ori.x ++ fs, add_edges ori.edge_index (injected_edges s) symmetric⟩

/-- Embedding of the feature-generation branch of
`InjectionAttacker.inject_node` (src lines 240-247) for `feat=None` with an
active flip budget: `feat = self.feat.new_zeros(1, self.num_feats)` builds a
1 x num_feats matrix, `idx = torch.randperm(self.num_feats)[:self.feat_budgets]`
takes the first `feat_budgets` entries of the permutation (passed explicitly
here), and `feat[idx] = 1.0` indexes dimension 0 (of size 1): it raises an
IndexError when an index exceeds the single row, and otherwise overwrites
whole rows with ones. -/
def inject_node_gen_feat (num_feats feat_budgets : ℕ) (perm : List ℕ) :
    Except PyError (List (List ℚ)) :=
  let feat : List (List ℚ) := [List.replicate num_feats 0]
  let idx := perm.take feat_budgets
  if idx.all (fun i => decide (i < feat.length)) then
    .ok (feat.mapIdx (fun j row =>
      if j ∈ idx then List.replicate num_feats 1 else row))
  else .error .indexError

theorem clip01_nonneg (x : ℚ) : 0 ≤ clip01 x := le_max_left 0 _

theorem clip01_le_one (x : ℚ) : clip01 x ≤ 1 :=
  max_le zero_le_one (min_le_left 1 x)

theorem clip01_eq_zero_of_nonpos {y : ℚ} (hy : y ≤ 0) : clip01 y = 0 :=
  max_eq_left (le_trans (min_le_right 1 y) hy)

theorem mem_le_foldr_max (w : List ℚ) (x : ℚ) (hx : x ∈ w) :
    x ≤ w.foldr max 0 := by
  induction w with
  | nil => cases hx
  | cons a l ih =>
    rcases List.mem_cons.mp hx with h | h
    · subst h; exact le_max_left _ _
    · exact le_trans (ih h) (le_max_right _ _)

theorem shiftedMass_foldr_max (w : List ℚ) : shiftedMass w (w.foldr max 0) = 0 := by
  apply List.sum_eq_zero
  intro y hy
  rcases List.mem_map.mp hy with ⟨x, hx, rfl⟩
  exact clip01_eq_zero_of_nonpos (sub_nonpos.mpr (mem_le_foldr_max w x hx))

theorem bisect_mass_le (w : List ℚ) (budget eps : ℚ) :
    ∀ (n : ℕ) (lo hi : ℚ), shiftedMass w hi ≤ budget →
      shiftedMass w (bisect w budget eps lo hi n) ≤ budget := by
  intro n
  induction n with
  | zero => intro lo hi h; simpa [bisect] using h
  | succ n ih =>
    intro lo hi h
    rw [bisect]
    split_ifs with h1 h2
    · exact h
    · exact ih _ _ h
    · exact ih _ _ (not_lt.mp h2)

/-- C1: every weight vector returned by the projection step inside
`PRBCDAttack.update` lands in the capped simplex: the sum of its entries is at
most the budget (hence at most budget plus the numerical tolerance) and every
entry lies in [0,1]. -/
theorem project_in_capped_simplex (budget : ℚ) (w : List ℚ) (eps : ℚ)
    (hb : 0 ≤ budget) (he : 0 ≤ eps) :
    (project budget w eps).sum ≤ budget + eps ∧
    ∀ x ∈ project budget w eps, 0 ≤ x ∧ x ≤ 1 := by
  have hsum : (project budget w eps).sum ≤ budget := by
    unfold project
    split_ifs with h
    · have hz : (w.map clip01).sum = shiftedMass w 0 := by
        simp only [shiftedMass, sub_zero]
      rw [hz]; exact h
    · exact bisect_mass_le w budget eps 100 _ _
        (by rw [shiftedMass_foldr_max]; exact hb)
  refine ⟨le_trans hsum (by linarith), ?_⟩
  intro x hx
  unfold project at hx
  split_ifs at hx
  · rcases List.mem_map.mp hx with ⟨y, _, rfl⟩
    exact ⟨clip01_nonneg _, clip01_le_one _⟩
  · rcases List.mem_map.mp hx with ⟨y, _, rfl⟩
    exact ⟨clip01_nonneg _, clip01_le_one _⟩

/-- Witness for C1 at a concrete input. -/
theorem project_in_capped_simplex_witness :
    (project 2 [3/2, 1/2, 2] (1/1000)).sum ≤ 2 + 1/1000 ∧
    ∀ x ∈ project 2 [3/2, 1/2, 2] (1/1000), 0 ≤ x ∧ x ≤ 1 :=
  project_in_capped_simplex 2 [3/2, 1/2, 2] (1/1000) (by norm_num) (by norm_num)

/-- C2: for every completed attack, the discrete edge set returned by
`get_flipped_edges` has at most `num_budgets` edges, so the budget assertion
in `PRBCDAttack.attack` always succeeds and the fatal branch is unreachable. -/
theorem flipped_edges_within_budget (es : Bool) (valid : ℕ × ℕ → Bool)
    (num_budgets : ℕ) (draw : List ℕ) (s : PRBCDState) :
    (get_flipped_edges es valid num_budgets draw s).length ≤ num_budgets ∧
    validate_flipped_edges (get_flipped_edges es valid num_budgets draw s)
      num_budgets = .ok () := by
  have hlen : (get_flipped_edges es valid num_budgets draw s).length ≤
      num_budgets := by
    unfold get_flipped_edges sample_final_edges
    rw [List.length_take]
    exact min_le_left _ _
  exact ⟨hlen, by unfold validate_flipped_edges; rw [if_pos hlen]⟩

/-- C3 counterexample: with early stopping disabled, `update` returns right
after projection, so at epoch 0, which is below `epochs_resampling - 1`, the
block is not resampled: it is left unchanged and differs from what the
resampler would have produced. -/
theorem update_no_resample_without_early_stopping :
    ((0 : ℤ) < (cfgNoES.epochs_resampling : ℤ) - 1) ∧
    (update cfgNoES 0 (resample_random_block 0 freshEx) metricEx 0 [0]
      sEx2).current_block = [7] ∧
    (resample_random_block 0 freshEx sEx2).1 = [7, 42] ∧
    ([7] : List ℕ) ≠ [7, 42] :=
  ⟨by decide, rfl, rfl, by decide⟩

theorem tripleEntries_of_maps (l : List (ℕ × (ℕ × ℕ) × ℚ)) :
    tripleEntries (l.map Prod.fst, l.map (fun e => e.2.1),
      l.map (fun e => e.2.2)) = l := by
  induction l with
  | nil => rfl
  | cons a t ih =>
    show (a.1, a.2.1, a.2.2) :: tripleEntries (t.map Prod.fst,
      t.map (fun e => e.2.1), t.map (fun e => e.2.2)) = a :: t
    rw [ih]

theorem tripleEntries_resample (keep_thr : ℚ)
    (fresh : List (ℕ × (ℕ × ℕ) × ℚ)) (t : PRBCDState) :
    tripleEntries (resample_random_block keep_thr fresh t) =
      keptEntries keep_thr t ++ fresh.filter
        (fun c => decide (c.1 ∉ (keptEntries keep_thr t).map Prod.fst)) := by
  unfold resample_random_block
  exact tripleEntries_of_maps _

/-- C3 (amended): when early stopping is enabled, while
`epoch < epochs_resampling - 1` each `update` resamples the block exactly once
(on the state after the projection and best-state bookkeeping), where
resampling replaces the lowest-weight entries of the block — those at or below
the replacement threshold — with freshly drawn candidates not already present
among the retained entries, preserving the weights of retained entries; and at
exactly `epoch == epochs_resampling - 1` the current block, block edge index
and block edge weights are set component-wise equal to the stored best state
instead of a resampled block. -/
theorem update_resampling_boundary (cfg : PRBCDConfig) (lrate keep_thr : ℚ)
    (fresh : List (ℕ × (ℕ × ℕ) × ℚ))
    (metricOf : PRBCDState → ℚ) (epoch : ℕ) (gradient : List ℚ)
    (s : PRBCDState) (hes : cfg.with_early_stopping = true) :
    ((epoch : ℤ) < (cfg.epochs_resampling : ℤ) - 1 →
      blockTriple (update cfg lrate (resample_random_block keep_thr fresh)
          metricOf epoch gradient s) =
        resample_random_block keep_thr fresh
          (bestStep (metricOf (projStep cfg.num_budgets cfg.eps lrate gradient s))
            (projStep cfg.num_budgets cfg.eps lrate gradient s))) ∧
    (∀ t : PRBCDState, ∀ e ∈ keptEntries keep_thr t,
      e ∈ tripleEntries (resample_random_block keep_thr fresh t)) ∧
    (∀ t : PRBCDState,
      ∀ e ∈ tripleEntries (resample_random_block keep_thr fresh t),
      e ∈ keptEntries keep_thr t ∨
        (e ∈ fresh ∧ e.1 ∉ (keptEntries keep_thr t).map Prod.fst)) ∧
    ((epoch : ℤ) = (cfg.epochs_resampling : ℤ) - 1 →
      (update cfg lrate (resample_random_block keep_thr fresh) metricOf epoch
          gradient s).current_block =
        (update cfg lrate (resample_random_block keep_thr fresh) metricOf epoch
          gradient s).best_block ∧
      (update cfg lrate (resample_random_block keep_thr fresh) metricOf epoch
          gradient s).block_edge_index =
        (update cfg lrate (resample_random_block keep_thr fresh) metricOf epoch
          gradient s).best_edge_index ∧
      (update cfg lrate (resample_random_block keep_thr fresh) metricOf epoch
          gradient s).block_edge_weight =
        (update cfg lrate (resample_random_block keep_thr fresh) metricOf epoch
          gradient s).best_pert_edge_weight) := by
  refine ⟨?_, ?_, ?_, ?_⟩
  · intro hlt
    unfold update
    rw [hes]
    simp only [if_true]
    unfold resampleStep
    rw [if_pos hlt]
    rfl
  · intro t e he
    rw [tripleEntries_resample]
    exact List.mem_append_left _ he
  · intro t e he
    rw [tripleEntries_resample] at he
    rcases List.mem_append.mp he with h | h
    · exact Or.inl h
    · rcases List.mem_filter.mp h with ⟨hf, hp⟩
      exact Or.inr ⟨hf, of_decide_eq_true hp⟩
  · intro heq
    unfold update
    rw [hes]
    simp only [if_true]
    unfold resampleStep
    rw [if_neg (by rw [heq]; exact lt_irrefl _), if_pos heq]
    exact ⟨rfl, rfl, rfl⟩

/-- Witness for C3 at a concrete input: epoch 0 with early stopping on
resamples once, and the retained entry (7, (0,1), 1) — above the threshold
0 — survives resampling with its weight preserved. -/
theorem update_resampling_boundary_witness :
    blockTriple (update cfgES 0 (resample_random_block 0 freshEx)
        metricEx 0 [0] sEx2) =
      resample_random_block 0 freshEx
        (bestStep (metricEx (projStep cfgES.num_budgets cfgES.eps 0 [0] sEx2))
          (projStep cfgES.num_budgets cfgES.eps 0 [0] sEx2)) ∧
    (7, (0, 1), (1 : ℚ)) ∈ tripleEntries (resample_random_block 0 freshEx sEx2) :=
  ⟨(update_resampling_boundary cfgES 0 0 freshEx metricEx 0 [0] sEx2 rfl).1
      (by decide),
   (update_resampling_boundary cfgES 0 0 freshEx metricEx 0 [0] sEx2 rfl).2.1
      sEx2 (7, (0, 1), 1) (List.Mem.head _)⟩

/-- C4: `PRBCDAttack.update` overwrites the best-known-so-far state only when
the epoch's metric is strictly greater than the stored best metric; otherwise
all four best-state fields are unchanged, and `best_metric` is monotonically
non-decreasing across epochs. -/
theorem update_best_state_monotone (cfg : PRBCDConfig) (lrate : ℚ)
    (resample : PRBCDState → List ℕ × List (ℕ × ℕ) × List ℚ)
    (metricOf : PRBCDState → ℚ) (epoch : ℕ) (gradient : List ℚ)
    (s : PRBCDState) :
    (metricGT (metricOf (projStep cfg.num_budgets cfg.eps lrate gradient s))
        s.best_metric = false →
      bestQuad (update cfg lrate resample metricOf epoch gradient s) =
        bestQuad s) ∧
    (cfg.with_early_stopping = false →
      bestQuad (update cfg lrate resample metricOf epoch gradient s) =
        bestQuad s) ∧
    (cfg.with_early_stopping = true →
      metricGT (metricOf (projStep cfg.num_budgets cfg.eps lrate gradient s))
        s.best_metric = true →
      (update cfg lrate resample metricOf epoch gradient s).best_metric =
        some (metricOf (projStep cfg.num_budgets cfg.eps lrate gradient s))) ∧
    optionLE s.best_metric
      (update cfg lrate resample metricOf epoch gradient s).best_metric = true := by
  have hresample : ∀ t, bestQuad (resampleStep cfg.epochs_resampling resample
      epoch t) = bestQuad t := by
    intro t
    unfold resampleStep writeBlock bestQuad
    split_ifs <;> rfl
  have hproj : bestQuad (projStep cfg.num_budgets cfg.eps lrate gradient s) =
      bestQuad s := rfl
  have hprojm : (projStep cfg.num_budgets cfg.eps lrate gradient s).best_metric =
      s.best_metric := rfl
  have hrefl : ∀ o, optionLE o o = true := by
    intro o; cases o with
    | none => rfl
    | some a => simp [optionLE]
  refine ⟨?_, ?_, ?_, ?_⟩
  · intro hm
    unfold update
    split_ifs with hes
    · rw [hresample]
      unfold bestStep
      rw [hprojm, hm]
      simp only [Bool.false_eq_true, if_false]
      exact hproj
    · exact hproj
  · intro hes
    unfold update
    rw [hes]
    simp only [Bool.false_eq_true, if_false]
    exact hproj
  · intro hes hm
    unfold update
    rw [hes]
    simp only [if_true]
    have : (bestStep
        (metricOf (projStep cfg.num_budgets cfg.eps lrate gradient s))
        (projStep cfg.num_budgets cfg.eps lrate gradient s)).best_metric =
        some (metricOf (projStep cfg.num_budgets cfg.eps lrate gradient s)) := by
      unfold bestStep
      rw [hprojm, hm]
      simp only [if_true]
    have hq := hresample (bestStep
      (metricOf (projStep cfg.num_budgets cfg.eps lrate gradient s))
      (projStep cfg.num_budgets cfg.eps lrate gradient s))
    have hm' := congrArg Prod.fst hq
    simp only [bestQuad] at hm'
    rw [hm', this]
  · unfold update
    split_ifs with hes
    · have hq := hresample (bestStep
        (metricOf (projStep cfg.num_budgets cfg.eps lrate gradient s))
        (projStep cfg.num_budgets cfg.eps lrate gradient s))
      have hm' := congrArg Prod.fst hq
      simp only [bestQuad] at hm'
      rw [hm']
      unfold bestStep
      rw [hprojm]
      split_ifs with hgt
      · cases hbm : s.best_metric with
        | none => rfl
        | some b =>
          rw [hbm] at hgt
          simp only [metricGT, decide_eq_true_eq] at hgt
          simp [optionLE, le_of_lt hgt]
      · rw [hprojm]
        exact hrefl _
    · rw [hprojm]
      exact hrefl _

/-- Witness for C4 at a concrete input; the first fact applies the
early-stopping-off clause, the second the strict-improvement clause (with a
fresh best metric), the third monotonicity. -/
theorem update_best_state_monotone_witness :
    (bestQuad (update cfgNoES 0 resampleEx metricEx 0 [0] sEx) = bestQuad sEx) ∧
    ((update cfgES 0 resampleEx metricEx 0 [0] sEx).best_metric =
      some (metricEx (projStep cfgES.num_budgets cfgES.eps 0 [0] sEx))) ∧
    optionLE sEx.best_metric
      (update cfgES 0 resampleEx metricEx 0 [0] sEx).best_metric = true :=
  ⟨(update_best_state_monotone cfgNoES 0 resampleEx metricEx 0 [0] sEx).2.1 rfl,
   (update_best_state_monotone cfgES 0 resampleEx metricEx 0 [0] sEx).2.2.1
     rfl (by decide),
   (update_best_state_monotone cfgES 0 resampleEx metricEx 0 [0] sEx).2.2.2⟩

/-- C5: evaluating the embedded feature-constraint resolution at
feat_limits=(2,5) with observed feature range [-3,7]: the caller-supplied
bounds are silently discarded and the resolved limits are (0,1), matching
neither the supplied bounds nor the observed range. -/
theorem feat_limits_overwritten_bug :
    resolve_feature_constraint (some (.tup (some 2) (some 5))) none (-3) 7 4 =
      .ok ⟨(0, 1), none, none⟩ := rfl

/-- C6 counterexample: with neither edge count given and a mean degree of
3/2, the code yields 1 (truncation of the clamped mean), while the claimed
default round(3/2) clamped to at least 1 is 2. -/
theorem floor_clamped_three_halves : Int.toNat ⌊max 1 (3 / 2 : ℚ)⌋ = 1 := by
  have hm : max 1 (3 / 2 : ℚ) = 3 / 2 := max_eq_right (by norm_num)
  have hf : ⌊(3 / 2 : ℚ)⌋ = 1 := by
    rw [Int.floor_eq_iff]
    norm_num
  rw [hm, hf]
  rfl

theorem resolve_edge_count_round_counterexample :
    resolve_edge_count none none 25 (3 / 2) = .ok 1 ∧
    claimed_default_edge_count (3 / 2) = 2 := by
  constructor
  · have h : resolve_edge_count none none 25 (3 / 2) =
        .ok (Int.toNat ⌊max 1 (3 / 2 : ℚ)⌋) := rfl
    rw [h, floor_clamped_three_halves]
  · have hr : round (3 / 2 : ℚ) = 2 := by
      have h2 : (3 / 2 : ℚ) + 1 / 2 = 2 := by norm_num
      rw [round_eq, h2]
      exact Int.floor_ofNat 2
    unfold claimed_default_edge_count
    rw [hr]
    rfl

/-- C6 (amended): supplying both `num_edges_local` and `num_edges_global`
fails; a global count is integer-divided by the target count, with a zero
quotient raising a budget error; with neither given, the local count defaults
to the floor of the mean degree clamped below at 1 (truncation, not
rounding). -/
theorem resolve_edge_count_spec (lv gv num_targets : ℕ) (mean_degree : ℚ)
    (ht : 0 < num_targets) :
    resolve_edge_count (some lv) (some gv) num_targets mean_degree =
      .error .runtimeError ∧
    (0 < gv / num_targets →
      resolve_edge_count none (some gv) num_targets mean_degree =
        .ok (gv / num_targets)) ∧
    (gv / num_targets = 0 →
      resolve_edge_count none (some gv) num_targets mean_degree =
        .error .valueError) ∧
    resolve_edge_count none none num_targets mean_degree =
      .ok (Int.toNat ⌊max 1 mean_degree⌋) := by
  refine ⟨rfl, ?_, ?_, rfl⟩
  · intro hq
    unfold resolve_edge_count
    simp only [Option.isSome_none, Option.isSome_some, Bool.false_and,
      Bool.and_true]
    rw [if_neg (by simp)]
    rw [if_neg (Nat.pos_iff_ne_zero.mp ht), if_neg (Nat.pos_iff_ne_zero.mp hq)]
  · intro hq
    simp [resolve_edge_count, Nat.pos_iff_ne_zero.mp ht, hq]

/-- Witness for C6 using the claim's own numbers: targets=25, global=100
yields local=4; global=10 with 25 targets raises; mean degree 3/2 defaults to
1. -/
theorem resolve_edge_count_spec_witness :
    resolve_edge_count (some 2) (some 100) 25 (3 / 2) = .error .runtimeError ∧
    resolve_edge_count none (some 100) 25 (3 / 2) = .ok 4 ∧
    resolve_edge_count none (some 10) 25 (3 / 2) = .error .valueError ∧
    resolve_edge_count none none 25 (3 / 2) = .ok 1 := by
  obtain ⟨h1, h2, -, h4⟩ :=
    resolve_edge_count_spec 2 100 25 (3 / 2) (by norm_num)
  obtain ⟨-, -, h3, -⟩ := resolve_edge_count_spec 2 10 25 (3 / 2) (by norm_num)
  refine ⟨h1, h2 (by norm_num), h3 (by norm_num), ?_⟩
  rw [h4, floor_clamped_three_halves]

/-- C7 counterexample: passing a callable as the `loss` argument of
`PRBCDAttack.attack` fails the membership assertion instead of being accepted
as an escape hatch. -/
theorem select_loss_rejects_callable :
    select_loss (.callable (fun _ _ _ => 0)) = .error .assertionError := rfl

/-- C7 (amended): the `loss` argument admits exactly the three names 'mce',
'prob_margin' and 'tanh_margin', mapping them to the corresponding loss
functions, and rejects any callable; the caller-supplied-callable escape
hatch is the `metric` argument, and when `metric` is None it defaults to the
selected loss. -/
theorem loss_metric_selection :
    select_loss (.name "mce") = .ok .masked_cross_entropy ∧
    select_loss (.name "prob_margin") = .ok .probability_margin_loss ∧
    select_loss (.name "tanh_margin") = .ok .tanh_margin_loss ∧
    (∀ f, select_loss (.callable f) = .error .assertionError) ∧
    (∀ l, resolve_metric none l = .fromLoss l) ∧
    (∀ m l, resolve_metric (some m) l = m) :=
  ⟨rfl, rfl, rfl, fun _ => rfl, fun _ => rfl, fun _ _ => rfl⟩

/-- C8 counterexample: on a freshly reset attacker, `data()` fails with a
TypeError (torch.cat with a None operand) instead of returning an
empty/unmodified result. -/
theorem data_fails_on_fresh_state :
    data ⟨[[0]], [(0, 1)]⟩ true reset_state = .error .typeError := rfl

/-- C8 (amended): on a freshly reset attacker with no edits recorded,
`injected_nodes()`, `injected_edges()` and `injected_feats()` each return
None, while the materialized-graph accessor `data()` raises a TypeError
rather than returning an empty/unmodified result. -/
theorem fresh_state_accessors (ori : PyGData) (symmetric : Bool) :
    injected_nodes reset_state = none ∧
    injected_edges reset_state = none ∧
    injected_feats reset_state = none ∧
    data ori symmetric reset_state = .error .typeError :=
  ⟨rfl, rfl, rfl, rfl⟩

/-- C9: at num_feats=3 and feat_budgets=2 with the permutation [0,1,2], the
feature generation of `inject_node` raises an IndexError; at feat_budgets=1
(same permutation) it returns a 1 x 3 matrix whose whole row is ones — three
entries equal to 1.0 rather than exactly one — so the generated vector never
matches the active flip-count constraint unless num_feats = feat_budgets. -/
theorem inject_node_gen_feat_bug :
    inject_node_gen_feat 3 2 [0, 1, 2] = .error .indexError ∧
    inject_node_gen_feat 3 1 [0, 1, 2] = .ok [[1, 1, 1]] := ⟨rfl, rfl⟩

/-- C10: a successful `InjectionAttacker.attack` call with a dict
`feat_limits` leaves the caller's dict emptied of 'min' and 'max' (the code
pops them in place), and a second call passing the now-empty dict resolves
both bounds as unset, falling back to the observed feature minimum and
maximum. -/
theorem feat_dict_emptied_after_call (mn mx : Option ℚ)
    (feat_min feat_max : ℚ) (num_feats : ℕ) (r : FeatResolution)
    (h : resolve_feature_constraint (some (.dict ⟨mn, mx, []⟩)) none
      feat_min feat_max num_feats = .ok r) :
    r.dict_after = some ⟨none, none, []⟩ ∧
    resolve_feature_constraint (some (.dict ⟨none, none, []⟩)) none
      feat_min feat_max num_feats =
      .ok ⟨(feat_min, feat_max), none, some ⟨none, none, []⟩⟩ := by
  refine ⟨?_, rfl⟩
  have h' : (⟨resolve_limit_bounds mn mx feat_min feat_max, none,
      some ⟨none, none, []⟩⟩ : FeatResolution) = r := by
    exact Except.ok.inj h
  rw [← h']

/-- Witness for C10 at a concrete input: a dict supplying both bounds. -/
theorem feat_dict_emptied_after_call_witness :
    (⟨(0, 1), none, some ⟨none, none, []⟩⟩ : FeatResolution).dict_after =
      some ⟨none, none, []⟩ ∧
    resolve_feature_constraint (some (.dict ⟨none, none, []⟩)) none (-2) 3 4 =
      .ok ⟨(-2, 3), none, some ⟨none, none, []⟩⟩ :=
  feat_dict_emptied_after_call (some 0) (some 1) (-2) 3 4
    ⟨(0, 1), none, some ⟨none, none, []⟩⟩ rfl
